import Mathlib

/-
Verification of the semantic matching and ranking engine of the
intelligent-job-matcher backend.

The embedding models two files:
  * backend/app/services/ai_matcher.py  (class IntelligentMatcher)
  * backend/app/routes/matching.py      (the intersection-based route and
    its helper functions)

Modelling conventions:
  * Python floats are modelled as exact rationals (ℚ).
  * `round(x, n)` is modelled as rounding half-to-even on the exact value.
  * The external sentence-transformer encoder is an abstract parameter
    `Encoder : String → Option (List ℚ)`; `none` models the encoder
    raising an exception for that text.
  * Entity dicts are modelled as records whose fields carry the defaults
    the code supplies via `dict.get` (a missing key behaves as the default).
  * Python `set` iteration order is unspecified; set values built from
    lists are modelled as first-occurrence-deduplicated lowered lists.
    No verified property depends on that order.
-/

namespace JobMatcher

/-! ## Rounding: the model of Python `round(x, ndigits)` -/

/-- Round a rational to the nearest integer, ties to even (Python `round`). -/
def roundHalfEven (q : ℚ) : ℤ :=
  if q - ⌊q⌋ < 1/2 then ⌊q⌋
  else if 1/2 < q - ⌊q⌋ then ⌊q⌋ + 1
  else if ⌊q⌋ % 2 = 0 then ⌊q⌋ else ⌊q⌋ + 1

/-- Python `round(q, 1)`. -/
def pyRound1 (q : ℚ) : ℚ := (roundHalfEven (q * 10) : ℚ) / 10

/-- Python `round(q, 2)`. -/
def pyRound2 (q : ℚ) : ℚ := (roundHalfEven (q * 100) : ℚ) / 100

/-! ## Vectors and the abstract encoder -/

/-- `np.dot` on two one-dimensional vectors of the same length. -/
def dotProduct (a b : List ℚ) : ℚ := (List.zipWith (· * ·) a b).sum

/-- The external text encoder (`self.model.encode`): `none` models the
encoder backend raising for that input text. -/
def Encoder : Type := String → Option (List ℚ)

/-! ## Entity records (`user_data` / job dicts) -/

/-- A user profile dict. Field values are what `user_data.get(key, default)`
yields, so a missing key is represented by its call-site default. -/
structure User where
  skills : List String
  experience_level : String
  interests : String
  career_goals : String
  education : List String
  rejection_history : List String
  deriving DecidableEq

/-- A job posting dict as the matcher reads it. -/
structure Job where
  id : String
  title : String
  company : String
  description : String
  location : String
  job_type : String
  required_skills : List String
  experience_required : String
  deriving DecidableEq, Inhabited

/-! ## IntelligentMatcher._get_embedding and the text templates -/

/-- The BAAI instruction prepended to search queries. -/
def searchInstruction : String :=
  "Represent this sentence for searching relevant passages: "

/-- `IntelligentMatcher._get_embedding`: prepend the instruction for
queries, then encode. -/
def getEmbedding (enc : Encoder) (is_query : Bool) (text : String) :
    Option (List ℚ) :=
  enc (if is_query then searchInstruction ++ text else text)

/-- `', '.join(l)`. -/
def joinComma (l : List String) : String := String.intercalate ", " l

/-- The stripped profile text `create_user_embedding` renders. -/
def userProfileText (u : User) : String :=
  String.trim
    ("Professional Profile:\n        Skills: " ++ joinComma u.skills ++
     "\n        Experience Level: " ++ u.experience_level ++
     "\n        Interests: " ++ u.interests ++
     "\n        Career Goals: " ++ u.career_goals ++
     "\n        Education: " ++ joinComma u.education)

/-- The stripped job text `create_job_embedding` renders (description
truncated to 1000 characters). -/
def jobText (j : Job) : String :=
  String.trim
    ("Job Position: " ++ j.title ++
     "\n        Company: " ++ j.company ++
     "\n        Job Description: " ++ j.description.take 1000 ++
     "\n        Required Skills: " ++ joinComma j.required_skills ++
     "\n        Experience Required: " ++ j.experience_required ++
     "\n        Location: " ++ j.location ++
     "\n        Job Type: " ++ j.job_type)

/-- `IntelligentMatcher.create_user_embedding`. -/
def create_user_embedding (enc : Encoder) (user_data : User)
    (for_search : Bool) : Option (List ℚ) :=
  getEmbedding enc for_search (userProfileText user_data)

/-- `IntelligentMatcher.create_job_embedding`. -/
def create_job_embedding (enc : Encoder) (job_data : Job)
    (for_search : Bool) : Option (List ℚ) :=
  getEmbedding enc for_search (jobText job_data)

/-! ## calculate_similarity -/

/-- `IntelligentMatcher.calculate_similarity`: dot product scaled to a
percentage and clamped to [0, 100].  `np.dot` raises on a length mismatch
and the surrounding `except` then returns `0.0`. -/
def calculate_similarity (embedding1 embedding2 : List ℚ) : ℚ :=
  if embedding1.length = embedding2.length then
    max 0 (min 100 (dotProduct embedding1 embedding2 * 100))
  else 0

/-! ## find_skill_gaps -/

/-- The semantic skill-gap threshold (0.65). -/
def gapThreshold : ℚ := 13/20

/-- `max_similarity` of the gap loop: starts at 0 and folds `max` over the
dot products with every user-skill embedding. -/
def maxSimTo (user_skill_embeddings : List (List ℚ)) (req_embedding : List ℚ) : ℚ :=
  user_skill_embeddings.foldl (fun acc ue => max acc (dotProduct ue req_embedding)) 0

/-- The list comprehension `[self._get_embedding(skill, is_query) for skill
in skills]`: `none` when any single embedding raises. -/
def embedAll (enc : Encoder) (is_query : Bool) : List String → Option (List (List ℚ))
  | [] => some []
  | s :: rest =>
    match getEmbedding enc is_query s with
    | none => none
    | some e => (embedAll enc is_query rest).map (e :: ·)

/-- `IntelligentMatcher.find_skill_gaps`.  Embedding failure anywhere makes
the `except` branch return the full required list. -/
def find_skill_gaps (enc : Encoder) (user_skills required_skills : List String) :
    List String :=
  if user_skills = [] ∨ required_skills = [] then
    if required_skills = [] then [] else required_skills
  else
    match embedAll enc true user_skills with
    | none => required_skills
    | some user_skill_embeddings =>
      match embedAll enc false required_skills with
      | none => required_skills
      | some required_skill_embeddings =>
        ((required_skills.zip required_skill_embeddings).filter
          (fun p => maxSimTo user_skill_embeddings p.2 < gapThreshold)).map Prod.fst

/-! ## generate_match_reasoning -/

/-- Render an integer as `toString`. -/
def natText (n : ℕ) : String := toString n

/-- Python `f"\x7bq:.1f\x7d"` on the exact rational value: one decimal digit,
ties to even. -/
def fmt1 (q : ℚ) : String :=
  let n := roundHalfEven (q * 10)
  let sign := if n < 0 then "-" else ""
  sign ++ toString (n.natAbs / 10) ++ "." ++ toString (n.natAbs % 10)

/-- Python `str.lower()` (character-wise; the skill strings and experience
levels compared here are ASCII). -/
def strLower (s : String) : String := String.mk (s.data.map Char.toLower)

/-- Deduplication keeping first occurrences, with an accumulator of the
elements already seen. -/
def dedupAux (seen : List String) : List String → List String
  | [] => []
  | x :: xs => if x ∈ seen then dedupAux seen xs else x :: dedupAux (x :: seen) xs

/-- `set(s.lower() for s in l)`, modelled as the lowered list with first
occurrences kept. -/
def lowerSet (l : List String) : List String := dedupAux [] (l.map strLower)

/-- `IntelligentMatcher.generate_match_reasoning`: the deterministic
reasoning template.  The `except` fallback is unreachable in the model. -/
def generate_match_reasoning (user_data : User) (job_data : Job)
    (score : ℚ) (skill_gaps : List String) : String :=
  let user_skills := lowerSet user_data.skills
  let required_skills := lowerSet job_data.required_skills
  let matching_skills := user_skills.filter (fun s => s ∈ required_skills)
  let header := "🎯 Match Score: " ++ fmt1 score ++ "% (BAAI High-Accuracy Model)"
  let matchPart :=
    if matching_skills ≠ [] then "✅ Strong Match: " ++ joinComma matching_skills
    else "✅ Semantic analysis found transferable skills"
  let gapParts : List String :=
    if skill_gaps ≠ [] then
      ("\n⚠️ Skills to Develop: " ++ joinComma (skill_gaps.take 5)) ::
        (if 5 < skill_gaps.length then
          ["   ... and " ++ natText (skill_gaps.length - 5) ++ " more"]
         else [])
    else ["\n✅ All required skills covered!"]
  let user_exp := strLower user_data.experience_level
  let job_exp := strLower job_data.experience_required
  let expPart :=
    if user_exp = job_exp then
      "\n👔 Experience Level: Perfect match (" ++ job_exp ++ ")"
    else
      "\n👔 Experience: " ++ job_exp ++ " required, you have " ++ user_exp
  let recPart :=
    if 85 ≤ score then "\n🚀 Recommendation: Excellent match - Apply now!"
    else if 70 ≤ score then "\n📚 Recommendation: Strong fit - Apply with confidence"
    else if 55 ≤ score then "\n💡 Recommendation: Consider applying with a good cover letter"
    else "\n📖 Recommendation: Build missing skills first"
  String.intercalate "\n" ([header, "", matchPart] ++ gapParts ++ [expPart, recPart])

/-! ## Rejection estimator and risk tiers (ai_matcher) -/

/-- The `exp_levels` dict lookup with default 1:
`\x7b'entry': 1, 'mid': 2, 'senior': 3\x7d.get(level, 1)`. -/
def exp_levels (level : String) : ℤ :=
  if level = "entry" then 1
  else if level = "mid" then 2
  else if level = "senior" then 3
  else 1

/-- `IntelligentMatcher._calculate_rejection_probability`. -/
def calculateRejectionProbability (match_score : ℚ) (skill_gap_count : ℕ)
    (user_data : User) (job_data : Job) : ℚ :=
  let score_penalty : ℚ :=
    if 85 ≤ match_score then 5
    else if 70 ≤ match_score then 15
    else if 55 ≤ match_score then 30
    else (100 - match_score) * (1/2)
  let skill_gap_penalty : ℚ := min ((skill_gap_count : ℚ) * 8) 45
  let user_level := exp_levels user_data.experience_level
  let job_level := exp_levels job_data.experience_required
  let exp_gap : ℚ := ((user_level - job_level).natAbs : ℚ) * 12
  let total := min (score_penalty + skill_gap_penalty + exp_gap) 95
  pyRound1 total

/-- `IntelligentMatcher._get_risk_level`. -/
def getRiskLevel (rejection_prob : ℚ) : String :=
  if rejection_prob < 25 then "Low"
  else if rejection_prob < 50 then "Medium"
  else "High"

/-- `IntelligentMatcher._get_action`. -/
def getAction (score rejection_prob : ℚ) : String :=
  if 85 ≤ score ∧ rejection_prob < 25 then "Apply Now - Excellent Match!"
  else if 75 ≤ score ∧ rejection_prob < 40 then "Strongly Consider Applying"
  else if 65 ≤ score ∧ rejection_prob < 55 then "Apply with Portfolio"
  else if 55 ≤ score then "Consider After Skill Improvement"
  else "Build Skills First"

/-! ## The ranking pipeline (rank_matches) -/

/-- One entry of the list `rank_matches` builds. -/
structure MatchResult where
  job : Job
  match_score : ℚ
  rejection_probability : ℚ
  rejection_risk : String
  skill_gaps : List String
  reasoning : String
  recommended_action : String
  ai_model : String
  deriving DecidableEq, Inhabited

/-- The candidate loop of `rank_matches`: skip candidates in the rejection
history, embed, score, keep scores ≥ 50.  `none` models a job-embedding
exception escaping the loop (it is caught by `rank_matches`). -/
def buildMatches (enc : Encoder) (user_data : User) (user_embedding : List ℚ) :
    List Job → Option (List MatchResult)
  | [] => some []
  | job :: rest =>
    if job.id ∈ user_data.rejection_history then
      buildMatches enc user_data user_embedding rest
    else
      match create_job_embedding enc job false with
      | none => none
      | some job_embedding =>
        let score := calculate_similarity user_embedding job_embedding
        if 50 ≤ score then
          let skill_gaps := find_skill_gaps enc user_data.skills job.required_skills
          let reasoning := generate_match_reasoning user_data job score skill_gaps
          let rejection_prob :=
            calculateRejectionProbability score skill_gaps.length user_data job
          let entry : MatchResult :=
            ⟨job, pyRound2 score, rejection_prob, getRiskLevel rejection_prob,
             skill_gaps, reasoning, getAction score rejection_prob,
             "BAAI/bge-base-en-v1.5"⟩
          (buildMatches enc user_data user_embedding rest).map (entry :: ·)
        else buildMatches enc user_data user_embedding rest

/-- `matches.sort(key=lambda x: x['match_score'], reverse=True)` is a stable
descending sort; insertion keeps an incoming earlier element ahead of every
equal-scored later one. -/
def insertDesc (m : MatchResult) : List MatchResult → List MatchResult
  | [] => [m]
  | y :: ys =>
    if y.match_score ≤ m.match_score then m :: y :: ys
    else y :: insertDesc m ys

/-- Stable descending sort on `match_score`. -/
def sortDesc : List MatchResult → List MatchResult
  | [] => []
  | x :: xs => insertDesc x (sortDesc xs)

/-- `IntelligentMatcher.rank_matches`.  The mandatory `top_k` argument models
the Python default of 20.  The surrounding `try/except` returns `[]` when an
embedding call raises. -/
def rank_matches (enc : Encoder) (user_data : User) (jobs : List Job)
    (top_k : ℕ) : List MatchResult :=
  match create_user_embedding enc user_data true with
  | none => []
  | some user_embedding =>
    match buildMatches enc user_data user_embedding jobs with
    | none => []
    | some ms => (sortDesc ms).take top_k

/-- The match list as built in input order, before sorting and truncation
(`matches` just before `matches.sort`); `[]` on an embedding failure. -/
def preMatches (enc : Encoder) (user_data : User) (jobs : List Job) :
    List MatchResult :=
  match create_user_embedding enc user_data true with
  | none => []
  | some user_embedding =>
    (buildMatches enc user_data user_embedding jobs).getD []

/-! ## The intersection-based matching route (routes/matching.py) -/

/-- A posting as the route loop reads it: `item.get("required_skills", [])`
models an absent skill list as `[]`. -/
structure RouteItem where
  id : String
  required_skills : List String
  deriving DecidableEq, Inhabited

/-- One entry of the route's `matches` list. -/
structure RouteMatch where
  item : RouteItem
  match_score : ℚ
  rejection_probability : ℚ
  rejection_risk : String
  matched : List String
  missing : List String
  reasoning : String
  recommended_action : String
  deriving DecidableEq, Inhabited

/-- `_generate_match_reason` of routes/matching.py. -/
def generateMatchReason (score : ℚ) (matched missing : List String) : String :=
  if 80 ≤ score then
    "Excellent match! You have " ++ natText matched.length ++ " matching skills."
  else if 60 ≤ score then
    "Good match with " ++ natText matched.length ++ " skills. Learn " ++
      joinComma (missing.take 3) ++ " to improve."
  else if 40 ≤ score then
    "Fair match. Consider learning: " ++ joinComma (missing.take 5)
  else
    "This role requires skills you\x27re still developing. Focus on: " ++
      joinComma (missing.take 5)

/-- The inline risk tag of the route loop:
`"low" if p < 30 else "medium" if p < 60 else "high"`. -/
def routeRiskTag (rejection_prob : ℚ) : String :=
  if rejection_prob < 30 then "low"
  else if rejection_prob < 60 then "medium"
  else "high"

/-- One iteration of the `get_matches` loop: the intersection-based score,
rejection probability and match entry for one posting. -/
def buildRouteMatch (user_skills : List String) (item : RouteItem) : RouteMatch :=
  let us := lowerSet user_skills
  let item_skills := lowerSet item.required_skills
  let matched_skills :=
    if item_skills = [] then [] else us.filter (fun s => s ∈ item_skills)
  let missing_skills :=
    if item_skills = [] then [] else item_skills.filter (fun s => s ∉ us)
  let match_score : ℚ :=
    if item_skills = [] then 50
    else (matched_skills.length : ℚ) / (item_skills.length : ℚ) * 100
  let rejection_prob : ℚ :=
    max 0 (min 100 (100 - match_score + (missing_skills.length : ℚ) * 5))
  ⟨item, pyRound1 match_score, pyRound1 rejection_prob,
   routeRiskTag rejection_prob, matched_skills, missing_skills,
   generateMatchReason match_score matched_skills missing_skills,
   if 70 ≤ match_score then "Apply Now!"
   else if 40 ≤ match_score then "Consider Upskilling"
   else "Focus on Learning"⟩

/-- The route's `matches` list before sorting and truncation: every fetched
item yields exactly one entry. -/
def routeMatchList (user_skills : List String) (items : List RouteItem) :
    List RouteMatch :=
  items.map (buildRouteMatch user_skills)

/-- The module-level helper `_calculate_rejection_probability` of
routes/matching.py. -/
def route_calculate_rejection_probability (match_score : ℚ) (skill_gaps : ℕ)
    (user_exp item_exp : String) : ℚ :=
  let score_penalty : ℚ := (100 - match_score) * (2/5)
  let skill_gap_penalty : ℚ := min ((skill_gaps : ℚ) * 10) 50
  let user_level := exp_levels user_exp
  let item_level := exp_levels item_exp
  let exp_gap : ℚ := ((user_level - item_level).natAbs : ℚ) * 10
  pyRound1 (min (score_penalty + skill_gap_penalty + exp_gap) 95)

/-! ## The spec-side rejection formula (for the refinement claim) -/

/-- The spec's piecewise base penalty: a small fixed penalty for scores
≥ 85, a moderate one on [70, 85), a larger one on [55, 70), and linear in
(100 − score) below 55. -/
def specBasePenalty (s : ℚ) : ℚ :=
  if 85 ≤ s then 5
  else if 70 ≤ s then 15
  else if 55 ≤ s then 30
  else (100 - s) * (1/2)

/-- The spec's experience-gap penalty: |user_level − target_level| · 12 over
the map entry ↦ 1, mid ↦ 2, senior ↦ 3. -/
def specExperiencePenalty (user_level target_level : String) : ℚ :=
  ((exp_levels user_level - exp_levels target_level).natAbs : ℚ) * 12

/-- The rejection-probability formula as the spec states it:
round(min(base(s) + min(g·8, 45) + expPenalty, 95), 1). -/
def rejectionFormula (s : ℚ) (g : ℕ) (user_level target_level : String) : ℚ :=
  pyRound1 (min (specBasePenalty s + min ((g : ℚ) * 8) 45 +
    specExperiencePenalty user_level target_level) 95)

/-! ## Concrete instances for witnesses and counterexamples -/

/-- An encoder that embeds every text as the unit vector [1]. -/
def encAll1 : Encoder := fun _ => some [1]

/-- An unavailable encoder: every encode call raises. -/
def encDown : Encoder := fun _ => none

/-- A concrete user with one skill and an empty rejection history. -/
def demoUser : User :=
  ⟨["python"], "entry", "software development", "grow as developer", [], []⟩

/-- A concrete job with no required skills. -/
def demoJob : Job :=
  ⟨"job1", "Dev", "Acme", "", "India", "remote", [], "entry"⟩

/-! ## Lemmas about rounding -/

theorem roundHalfEven_le {q : ℚ} {n : ℤ} (h : q ≤ (n : ℚ)) :
    roundHalfEven q ≤ n := by
  have hfl : (⌊q⌋ : ℚ) ≤ q := Int.floor_le q
  have hfn : ⌊q⌋ ≤ n := by
    have := Int.floor_le_floor h
    simpa using this
  unfold roundHalfEven
  split_ifs with h1 h2 h3
  · exact hfn
  · rcases lt_or_eq_of_le hfn with hlt | heq
    · omega
    · exfalso
      have hq : (⌊q⌋ : ℚ) = (n : ℚ) := by exact_mod_cast heq
      linarith
  · exact hfn
  · rcases lt_or_eq_of_le hfn with hlt | heq
    · omega
    · exfalso
      have hq : (⌊q⌋ : ℚ) = (n : ℚ) := by exact_mod_cast heq
      have htie : q - ⌊q⌋ = 1/2 := le_antisymm (not_lt.mp h2) (not_lt.mp h1)
      linarith

theorem le_roundHalfEven {q : ℚ} {n : ℤ} (h : (n : ℚ) ≤ q) :
    n ≤ roundHalfEven q := by
  have hn : n ≤ ⌊q⌋ := Int.le_floor.mpr h
  unfold roundHalfEven
  split_ifs <;> omega

theorem pyRound1_le {q : ℚ} {n : ℤ} (h : q ≤ (n : ℚ)) : pyRound1 q ≤ (n : ℚ) := by
  unfold pyRound1
  have h10 : q * 10 ≤ ((10 * n : ℤ) : ℚ) := by push_cast; linarith
  have hr := roundHalfEven_le h10
  rw [div_le_iff₀ (by norm_num : (0:ℚ) < 10)]
  calc (roundHalfEven (q * 10) : ℚ) ≤ ((10 * n : ℤ) : ℚ) := by exact_mod_cast hr
    _ = (n : ℚ) * 10 := by push_cast; ring

theorem le_pyRound1 {q : ℚ} {n : ℤ} (h : (n : ℚ) ≤ q) : (n : ℚ) ≤ pyRound1 q := by
  unfold pyRound1
  have h10 : ((10 * n : ℤ) : ℚ) ≤ q * 10 := by push_cast; linarith
  have hr := le_roundHalfEven h10
  rw [le_div_iff₀ (by norm_num : (0:ℚ) < 10)]
  calc (n : ℚ) * 10 = ((10 * n : ℤ) : ℚ) := by push_cast; ring
    _ ≤ (roundHalfEven (q * 10) : ℚ) := by exact_mod_cast hr

theorem le_pyRound2 {q : ℚ} {n : ℤ} (h : (n : ℚ) ≤ q) : (n : ℚ) ≤ pyRound2 q := by
  unfold pyRound2
  have h100 : ((100 * n : ℤ) : ℚ) ≤ q * 100 := by push_cast; linarith
  have hr := le_roundHalfEven h100
  rw [le_div_iff₀ (by norm_num : (0:ℚ) < 100)]
  calc (n : ℚ) * 100 = ((100 * n : ℤ) : ℚ) := by push_cast; ring
    _ ≤ (roundHalfEven (q * 100) : ℚ) := by exact_mod_cast hr

/-! ## Lemmas about embedAll -/

theorem embedAll_eq_none {enc : Encoder} {is_query : Bool} :
    ∀ {l : List String}, (∃ s ∈ l, getEmbedding enc is_query s = none) →
      embedAll enc is_query l = none := by
  intro l
  induction l with
  | nil => rintro ⟨s, hs, -⟩; cases hs
  | cons x xs ih =>
    rintro ⟨s, hs, hnone⟩
    rcases List.mem_cons.mp hs with rfl | hmem
    · simp [embedAll, hnone]
    · simp only [embedAll]
      cases hx : getEmbedding enc is_query x with
      | none => rfl
      | some e => rw [ih ⟨s, hmem, hnone⟩]; rfl

theorem embedAll_zip {enc : Encoder} {is_query : Bool} :
    ∀ {l : List String} {es : List (List ℚ)},
      embedAll enc is_query l = some es →
      ∀ s e, (s, e) ∈ l.zip es → getEmbedding enc is_query s = some e := by
  intro l
  induction l with
  | nil => intro es h s e hmem; simp [List.zip] at hmem
  | cons x xs ih =>
    intro es h s e hmem
    simp only [embedAll] at h
    cases hx : getEmbedding enc is_query x with
    | none => rw [hx] at h; cases h
    | some e0 =>
      rw [hx] at h
      cases hrest : embedAll enc is_query xs with
      | none => rw [hrest] at h; cases h
      | some es0 =>
        rw [hrest] at h
        have h' : e0 :: es0 = es := by simpa using h
        subst h'
        have hmem2 : s = x ∧ e = e0 ∨ (s, e) ∈ xs.zip es0 := by
          simpa [List.zip_cons_cons] using hmem
        rcases hmem2 with ⟨rfl, rfl⟩ | hmem'
        · exact hx
        · exact ih hrest s e hmem'

/-! ## Lemmas about maxSimTo -/

theorem foldl_max_lt (g : List ℚ → ℚ) (c : ℚ) :
    ∀ (l : List (List ℚ)) (a : ℚ),
      l.foldl (fun acc x => max acc (g x)) a < c ↔ a < c ∧ ∀ x ∈ l, g x < c := by
  intro l
  induction l with
  | nil => intro a; simp
  | cons x xs ih =>
    intro a
    simp only [List.foldl_cons, ih, max_lt_iff, List.mem_cons]
    constructor
    · rintro ⟨⟨ha, hx⟩, hall⟩
      exact ⟨ha, fun y hy => hy.elim (fun h => h ▸ hx) (hall y)⟩
    · rintro ⟨ha, hall⟩
      exact ⟨⟨ha, hall x (Or.inl rfl)⟩, fun y hy => hall y (Or.inr hy)⟩

theorem maxSimTo_lt_iff {uE : List (List ℚ)} {e : List ℚ} {c : ℚ} (hc : 0 < c) :
    maxSimTo uE e < c ↔ ∀ eu ∈ uE, dotProduct eu e < c := by
  unfold maxSimTo
  rw [foldl_max_lt]
  exact and_iff_right hc

/-! ## Lemmas about the stable descending sort -/

theorem insertDesc_perm (m : MatchResult) (l : List MatchResult) :
    (insertDesc m l).Perm (m :: l) := by
  induction l with
  | nil => exact List.Perm.refl _
  | cons y ys ih =>
    simp only [insertDesc]
    split_ifs with h
    · exact List.Perm.refl _
    · exact (ih.cons y).trans (List.Perm.swap m y ys)

theorem sortDesc_perm (l : List MatchResult) : (sortDesc l).Perm l := by
  induction l with
  | nil => exact List.Perm.refl _
  | cons x xs ih =>
    exact (insertDesc_perm x (sortDesc xs)).trans (ih.cons x)

theorem insertDesc_pairwise {m : MatchResult} {l : List MatchResult}
    (h : l.Pairwise (fun a b => b.match_score ≤ a.match_score)) :
    (insertDesc m l).Pairwise (fun a b => b.match_score ≤ a.match_score) := by
  induction l with
  | nil => simp [insertDesc]
  | cons y ys ih =>
    rw [List.pairwise_cons] at h
    simp only [insertDesc]
    split_ifs with hc
    · rw [List.pairwise_cons]
      refine ⟨?_, List.pairwise_cons.mpr h⟩
      intro b hb
      rcases List.mem_cons.mp hb with rfl | hb'
      · exact hc
      · exact le_trans (h.1 b hb') hc
    · rw [List.pairwise_cons]
      refine ⟨?_, ih h.2⟩
      intro b hb
      rcases List.mem_cons.mp ((insertDesc_perm m ys).mem_iff.mp hb) with rfl | hb'
      · exact (not_le.mp hc).le
      · exact h.1 b hb'

theorem sortDesc_pairwise (l : List MatchResult) :
    (sortDesc l).Pairwise (fun a b => b.match_score ≤ a.match_score) := by
  induction l with
  | nil => simp [sortDesc]
  | cons x xs ih => exact insertDesc_pairwise ih

theorem insertDesc_filter (m : MatchResult) (l : List MatchResult) (c : ℚ) :
    (insertDesc m l).filter (fun x => x.match_score = c) =
      if m.match_score = c then
        m :: l.filter (fun x => x.match_score = c)
      else l.filter (fun x => x.match_score = c) := by
  induction l with
  | nil =>
    by_cases hm : m.match_score = c <;> simp [insertDesc, hm]
  | cons y ys ih =>
    simp only [insertDesc]
    by_cases hy : y.match_score ≤ m.match_score
    · rw [if_pos hy]
      by_cases hm : m.match_score = c
      · simp [List.filter_cons, hm]
      · simp [List.filter_cons, hm]
    · rw [if_neg hy]
      by_cases hm : m.match_score = c
      · have hyc : ¬ y.match_score = c := fun hyy => hy (by rw [hyy, hm])
        simp [List.filter_cons, hyc, hm, ih]
      · simp [List.filter_cons, hm, ih]

theorem sortDesc_filter (l : List MatchResult) (c : ℚ) :
    (sortDesc l).filter (fun x => x.match_score = c) =
      l.filter (fun x => x.match_score = c) := by
  induction l with
  | nil => rfl
  | cons x xs ih =>
    simp only [sortDesc]
    rw [insertDesc_filter]
    by_cases hx : x.match_score = c
    · simp [List.filter_cons, hx, ih]
    · simp [List.filter_cons, hx, ih]

/-! ## Lemmas about the candidate loop and the pipeline -/

theorem buildMatches_mem {enc : Encoder} {u : User} {e : List ℚ} :
    ∀ {jobs : List Job} {ms : List MatchResult},
      buildMatches enc u e jobs = some ms →
      ∀ m ∈ ms, m.job.id ∉ u.rejection_history ∧ 50 ≤ m.match_score := by
  intro jobs
  induction jobs with
  | nil =>
    intro ms h m hm
    simp only [buildMatches, Option.some.injEq] at h
    subst h
    cases hm
  | cons job rest ih =>
    intro ms h m hm
    rw [buildMatches] at h
    by_cases hskip : job.id ∈ u.rejection_history
    · rw [if_pos hskip] at h
      exact ih h m hm
    · rw [if_neg hskip] at h
      cases hemb : create_job_embedding enc job false with
      | none => rw [hemb] at h; cases h
      | some jemb =>
        rw [hemb] at h
        dsimp only at h
        by_cases hs : 50 ≤ calculate_similarity e jemb
        · rw [if_pos hs] at h
          cases hrest : buildMatches enc u e rest with
          | none => rw [hrest] at h; cases h
          | some ms' =>
            rw [hrest] at h
            simp only [Option.map_some', Option.some.injEq] at h
            subst h
            rcases List.mem_cons.mp hm with rfl | hm'
            · refine ⟨hskip, ?_⟩
              have h50 : ((50 : ℤ) : ℚ) ≤ calculate_similarity e jemb := by
                exact_mod_cast hs
              have := le_pyRound2 h50
              simpa using this
            · exact ih hrest m hm'
        · rw [if_neg hs] at h
          exact ih h m hm

theorem buildMatches_sublist {enc : Encoder} {u : User} {e : List ℚ} :
    ∀ {jobs : List Job} {ms : List MatchResult},
      buildMatches enc u e jobs = some ms →
      List.Sublist (ms.map (fun m => m.job)) jobs := by
  intro jobs
  induction jobs with
  | nil =>
    intro ms h
    simp only [buildMatches, Option.some.injEq] at h
    subst h
    simp
  | cons job rest ih =>
    intro ms h
    rw [buildMatches] at h
    by_cases hskip : job.id ∈ u.rejection_history
    · rw [if_pos hskip] at h
      exact (ih h).cons job
    · rw [if_neg hskip] at h
      cases hemb : create_job_embedding enc job false with
      | none => rw [hemb] at h; cases h
      | some jemb =>
        rw [hemb] at h
        dsimp only at h
        by_cases hs : 50 ≤ calculate_similarity e jemb
        · rw [if_pos hs] at h
          cases hrest : buildMatches enc u e rest with
          | none => rw [hrest] at h; cases h
          | some ms' =>
            rw [hrest] at h
            simp only [Option.map_some', Option.some.injEq] at h
            subst h
            simpa using List.Sublist.cons₂ job (ih hrest)
        · rw [if_neg hs] at h
          exact (ih h).cons job

theorem preMatches_none {enc : Encoder} {u : User} {jobs : List Job}
    (h : create_user_embedding enc u true = none) :
    preMatches enc u jobs = [] := by
  unfold preMatches
  rw [h]

theorem preMatches_some {enc : Encoder} {u : User} {jobs : List Job} {e : List ℚ}
    (h : create_user_embedding enc u true = some e) :
    preMatches enc u jobs = (buildMatches enc u e jobs).getD [] := by
  unfold preMatches
  rw [h]

theorem rank_matches_eq_take_sort (enc : Encoder) (u : User) (jobs : List Job)
    (top_k : ℕ) :
    rank_matches enc u jobs top_k = (sortDesc (preMatches enc u jobs)).take top_k := by
  unfold rank_matches preMatches
  cases h1 : create_user_embedding enc u true with
  | none => simp [sortDesc]
  | some e =>
    cases h2 : buildMatches enc u e jobs with
    | none => simp [h2, sortDesc]
    | some ms => simp [h2]

/-! ## Helper bounds for the rejection estimators -/

theorem pyRound1_min95_le (x : ℚ) : pyRound1 (min x 95) ≤ 95 := by
  have h : min x 95 ≤ ((95 : ℤ) : ℚ) := by
    push_cast
    exact min_le_right x 95
  have := pyRound1_le h
  push_cast at this
  exact this

theorem pyRound1_clamp01 (x : ℚ) :
    0 ≤ pyRound1 (max 0 (min 100 x)) ∧ pyRound1 (max 0 (min 100 x)) ≤ 100 := by
  constructor
  · have h : ((0 : ℤ) : ℚ) ≤ max 0 (min 100 x) := by
      push_cast
      exact le_max_left 0 _
    have := le_pyRound1 h
    push_cast at this
    exact this
  · have h : max 0 (min 100 x) ≤ ((100 : ℤ) : ℚ) := by
      push_cast
      exact max_le (by norm_num) (min_le_left 100 x)
    have := pyRound1_le h
    push_cast at this
    exact this

/-! ## Claim theorems -/

/-- Claim C3 (confirmed): the embedding-path rejection estimator returns
round(min(base(s) + min(g·8, 45) + |user_level − target_level|·12, 95), 1)
for the experience map entry ↦ 1, mid ↦ 2, senior ↦ 3, where base is the
fixed small penalty 5 for s ≥ 85, the moderate 15 on [70, 85), the larger
30 on [55, 70), and (100 − s)/2, linear in (100 − s), below 55. -/
theorem rejection_estimator_matches_formula :
    (∀ (s : ℚ) (g : ℕ) (u : User) (j : Job),
        calculateRejectionProbability s g u j =
          rejectionFormula s g u.experience_level j.experience_required) ∧
    (∀ s : ℚ, 85 ≤ s → specBasePenalty s = 5) ∧
    (∀ s : ℚ, 70 ≤ s → s < 85 → specBasePenalty s = 15) ∧
    (∀ s : ℚ, 55 ≤ s → s < 70 → specBasePenalty s = 30) ∧
    (∀ s : ℚ, s < 55 → specBasePenalty s = (100 - s) * (1/2)) ∧
    ((5 : ℚ) < 15 ∧ (15 : ℚ) < 30) ∧
    exp_levels "entry" = 1 ∧ exp_levels "mid" = 2 ∧ exp_levels "senior" = 3 := by
  refine ⟨fun s g u j => rfl, ?_, ?_, ?_, ?_, by norm_num, ?_, ?_, ?_⟩
  · intro s h
    unfold specBasePenalty
    rw [if_pos h]
  · intro s h1 h2
    unfold specBasePenalty
    rw [if_neg (not_le.mpr h2), if_pos h1]
  · intro s h1 h2
    unfold specBasePenalty
    rw [if_neg (not_le.mpr (lt_trans h2 (by norm_num))),
        if_neg (not_le.mpr h2), if_pos h1]
  · intro s h1
    unfold specBasePenalty
    rw [if_neg (not_le.mpr (lt_trans h1 (by norm_num))),
        if_neg (not_le.mpr (lt_trans h1 (by norm_num))),
        if_neg (not_le.mpr h1)]
  · simp [exp_levels]
  · simp [exp_levels]
  · simp [exp_levels]

/-- Claim C1 (corrected): the embedding-based estimator and the route
helper estimator cap the reported rejection probability at 95, but the
route-level intersection-based computation only clamps it to [0, 100] and
can report 100. -/
theorem rejection_probability_caps :
    (∀ (s : ℚ) (g : ℕ) (u : User) (j : Job),
        calculateRejectionProbability s g u j ≤ 95) ∧
    (∀ (s : ℚ) (g : ℕ) (user_exp item_exp : String),
        route_calculate_rejection_probability s g user_exp item_exp ≤ 95) ∧
    (∀ (user_skills : List String) (item : RouteItem),
        0 ≤ (buildRouteMatch user_skills item).rejection_probability ∧
        (buildRouteMatch user_skills item).rejection_probability ≤ 100) := by
  refine ⟨fun s g u j => ?_, fun s g ue ie => ?_, fun us item => ?_⟩
  · exact pyRound1_min95_le _
  · exact pyRound1_min95_le _
  · exact pyRound1_clamp01 _

unseal Rat.mul Rat.sub Rat.add Rat.inv in
/-- Claim C1, counterexample: a posting requiring two skills the user
lacks is reported with rejection probability 100, above the claimed cap
of 95, by the route-level intersection-based computation. -/
theorem route_rejection_reaches_100 :
    (buildRouteMatch ["python"] ⟨"i1", ["java", "c"]⟩).rejection_probability = 100 ∧
    ¬ (buildRouteMatch ["python"] ⟨"i1", ["java", "c"]⟩).rejection_probability ≤ 95 := by
  constructor
  · decide
  · decide

/-- Claim C2 (corrected, amended): when the encoder is unavailable the
whole ranking call returns the empty list as a normal value — the same
observable as zero candidates meeting the floor — because `rank_matches`
catches every exception and returns `[]`. -/
theorem rank_matches_swallows_encoder_failure :
    ∀ (u : User) (jobs : List Job) (top_k : ℕ),
      rank_matches (fun _ => none) u jobs top_k = [] := by
  intro u jobs top_k
  rfl

unseal Rat.mul Rat.sub Rat.add Rat.inv in
/-- Claim C2, counterexample: with the encoder down, ranking one candidate
that a working encoder ranks (length 1) yields `[]`, indistinguishable
from an empty result. -/
theorem rank_matches_failure_indistinguishable :
    rank_matches encDown demoUser [demoJob] 20 = [] ∧
    (rank_matches encAll1 demoUser [demoJob] 20).length = 1 := by
  exact ⟨rfl, by decide⟩

/-- Claim C9 (confirmed): the embedding-path risk tiers break at 25/50
(Low/Medium/High) and the route-level tiers at 30/60 (low/medium/high);
the two policies classify 27 differently. -/
theorem risk_tier_policies :
    (∀ p : ℚ,
      (getRiskLevel p = "Low" ↔ p < 25) ∧
      (getRiskLevel p = "Medium" ↔ 25 ≤ p ∧ p < 50) ∧
      (getRiskLevel p = "High" ↔ 50 ≤ p)) ∧
    (∀ p : ℚ,
      (routeRiskTag p = "low" ↔ p < 30) ∧
      (routeRiskTag p = "medium" ↔ 30 ≤ p ∧ p < 60) ∧
      (routeRiskTag p = "high" ↔ 60 ≤ p)) ∧
    (getRiskLevel 27 = "Medium" ∧ routeRiskTag 27 = "low") := by
  refine ⟨fun p => ?_, fun p => ?_, ?_, ?_⟩
  · unfold getRiskLevel
    split_ifs with h1 h2 <;>
      refine ⟨?_, ?_, ?_⟩ <;> simp_all <;> linarith
  · unfold routeRiskTag
    split_ifs with h1 h2 <;>
      refine ⟨?_, ?_, ?_⟩ <;> simp_all <;> linarith
  · norm_num [getRiskLevel]
  · norm_num [routeRiskTag]

/-- Claim C6 (confirmed): for equal-dimension vectors, similarity is the
dot product scaled by 100 and clamped to [0, 100]; it always lies in
[0, 100], and a unit-norm vector has similarity 100 with itself. -/
theorem similarity_is_clamped_dot :
    ∀ (a b : List ℚ), a.length = b.length →
      (calculate_similarity a b = max 0 (min 100 (dotProduct a b * 100)) ∧
       0 ≤ calculate_similarity a b ∧ calculate_similarity a b ≤ 100 ∧
       (dotProduct a a = 1 → calculate_similarity a a = 100)) := by
  intro a b h
  refine ⟨?_, ?_, ?_, ?_⟩
  · unfold calculate_similarity
    rw [if_pos h]
  · unfold calculate_similarity
    rw [if_pos h]
    exact le_max_left _ _
  · unfold calculate_similarity
    rw [if_pos h]
    exact max_le (by norm_num) (min_le_left _ _)
  · intro h1
    unfold calculate_similarity
    rw [if_pos rfl, h1]
    norm_num

/-- Claim C6, witness: the theorem applied to the unit vector [1]. -/
theorem similarity_is_clamped_dot_witness :
    calculate_similarity [1] [1] = 100 := by
  have h := similarity_is_clamped_dot [1] [1] rfl
  refine h.2.2.2 ?_
  norm_num [dotProduct]

/-- Claim C7 (confirmed): with every per-skill embedding succeeding, the
gap result is empty for an empty required list, the full required list for
an empty user list, and otherwise contains a required skill iff the
maximum dot-product similarity of its embedding with every user-skill
embedding stays strictly below the threshold 0.65. -/
theorem skill_gaps_semantics :
    ∀ (enc : Encoder) (user_skills required_skills : List String)
      (uE rE : List (List ℚ)),
      embedAll enc true user_skills = some uE →
      embedAll enc false required_skills = some rE →
      ((required_skills = [] → find_skill_gaps enc user_skills required_skills = []) ∧
       (user_skills = [] → find_skill_gaps enc user_skills required_skills = required_skills) ∧
       (user_skills ≠ [] → ∀ r er, (r, er) ∈ required_skills.zip rE →
          (r ∈ find_skill_gaps enc user_skills required_skills ↔
            ∀ eu ∈ uE, dotProduct eu er < gapThreshold))) := by
  intro enc us rs uE rE hu hr
  refine ⟨?_, ?_, ?_⟩
  · intro h
    subst h
    simp [find_skill_gaps]
  · intro h
    subst h
    by_cases hrs : rs = [] <;> simp [find_skill_gaps, hrs]
  · intro hus r er hzip
    have hrs : rs ≠ [] := by
      rintro rfl
      simp at hzip
    unfold find_skill_gaps
    rw [if_neg (by simp [hus, hrs]), hu, hr]
    constructor
    · intro hmem
      rcases List.mem_map.mp hmem with ⟨⟨r', er'⟩, hp, heq⟩
      dsimp at heq
      subst heq
      have hfil := List.mem_filter.mp hp
      have hpred : maxSimTo uE er' < gapThreshold := by simpa using hfil.2
      have her' := embedAll_zip hr _ _ hfil.1
      have her := embedAll_zip hr _ _ hzip
      have heq2 : er' = er := by
        rw [her'] at her
        exact Option.some.inj her
      subst heq2
      exact (maxSimTo_lt_iff (by norm_num [gapThreshold])).mp hpred
    · intro hall
      apply List.mem_map.mpr
      refine ⟨(r, er), List.mem_filter.mpr ⟨hzip, ?_⟩, rfl⟩
      simpa using (maxSimTo_lt_iff (by norm_num [gapThreshold])).mpr hall

/-- Claim C7, witness: with an encoder sending every text to [1], the
required skill b has similarity 1 ≥ 0.65 with the user skill a, so it is
not reported as a gap. -/
theorem skill_gaps_semantics_witness :
    "b" ∉ find_skill_gaps encAll1 ["a"] ["b"] := by
  intro hmem
  have h := skill_gaps_semantics encAll1 ["a"] ["b"] [[1]] [[1]] rfl rfl
  have hiff := h.2.2 (by simp) "b" [1] (by simp)
  have hlt := hiff.mp hmem [1] (by simp)
  norm_num [dotProduct, gapThreshold] at hlt

/-- Claim C8 (confirmed): if embedding any individual skill fails during
gap computation, the whole gap computation returns the full required-skill
list. -/
theorem skill_gaps_fail_closed :
    ∀ (enc : Encoder) (user_skills required_skills : List String),
      ((∃ s ∈ user_skills, getEmbedding enc true s = none) ∨
       (∃ s ∈ required_skills, getEmbedding enc false s = none)) →
      find_skill_gaps enc user_skills required_skills = required_skills := by
  intro enc us rs h
  by_cases hus : us = []
  · subst hus
    by_cases hrs : rs = [] <;> simp [find_skill_gaps, hrs]
  · by_cases hrs : rs = []
    · subst hrs
      simp [find_skill_gaps]
    · unfold find_skill_gaps
      rw [if_neg (by simp [hus, hrs])]
      rcases h with ⟨s, hs, hn⟩ | ⟨s, hs, hn⟩
      · rw [embedAll_eq_none ⟨s, hs, hn⟩]
      · cases hA : embedAll enc true us with
        | none => rfl
        | some uE => rw [embedAll_eq_none ⟨s, hs, hn⟩]

/-- Claim C8, witness: the theorem applied to the failing encoder. -/
theorem skill_gaps_fail_closed_witness :
    find_skill_gaps encDown ["a"] ["b"] = ["b"] := by
  exact skill_gaps_fail_closed encDown ["a"] ["b"] (Or.inl ⟨"a", by simp, rfl⟩)

/-- Claim C10 (confirmed): in the intersection-based route, a posting with
an empty (or absent) required-skill list gets match score exactly 50,
empty matched and missing sets, rejection probability exactly 50 and tier
"medium", and its entry is always in the built match list. -/
theorem route_empty_skills_default :
    ∀ (user_skills : List String) (items : List RouteItem) (item : RouteItem),
      item ∈ items → item.required_skills = [] →
      ((buildRouteMatch user_skills item).match_score = 50 ∧
       (buildRouteMatch user_skills item).matched = [] ∧
       (buildRouteMatch user_skills item).missing = [] ∧
       (buildRouteMatch user_skills item).rejection_probability = 50 ∧
       (buildRouteMatch user_skills item).rejection_risk = "medium" ∧
       buildRouteMatch user_skills item ∈ routeMatchList user_skills items) := by
  intro us items item hmem hempty
  have hl : lowerSet item.required_skills = [] := by
    rw [hempty]
    rfl
  have h50 : pyRound1 50 = 50 := by
    have h1 : roundHalfEven ((500 : ℚ)) = 500 := by
      norm_num [roundHalfEven]
    norm_num [pyRound1, h1]
  refine ⟨?_, ?_, ?_, ?_, ?_, List.mem_map_of_mem _ hmem⟩
  · simp only [buildRouteMatch, hl]
    norm_num [h50]
  · simp [buildRouteMatch, hl]
  · simp [buildRouteMatch, hl]
  · simp only [buildRouteMatch, hl]
    norm_num [h50]
  · simp only [buildRouteMatch, hl]
    norm_num [routeRiskTag]

/-- Claim C10, witness: the theorem applied to a concrete posting without
required skills. -/
theorem route_empty_skills_default_witness :
    (buildRouteMatch ["python"] ⟨"i1", []⟩).match_score = 50 ∧
    (buildRouteMatch ["python"] ⟨"i1", []⟩).matched = [] ∧
    (buildRouteMatch ["python"] ⟨"i1", []⟩).missing = [] ∧
    (buildRouteMatch ["python"] ⟨"i1", []⟩).rejection_probability = 50 ∧
    (buildRouteMatch ["python"] ⟨"i1", []⟩).rejection_risk = "medium" ∧
    buildRouteMatch ["python"] ⟨"i1", []⟩ ∈ routeMatchList ["python"] [⟨"i1", []⟩] := by
  exact route_empty_skills_default ["python"] [⟨"i1", []⟩] ⟨"i1", []⟩ (by simp) rfl

/-- Claim C5 (confirmed): every match returned by the embedding-based
ranking has a candidate id outside the rejection history and a match score
of at least the floor 50. -/
theorem rank_matches_members_filtered :
    ∀ (enc : Encoder) (u : User) (jobs : List Job) (top_k : ℕ)
      (m : MatchResult), m ∈ rank_matches enc u jobs top_k →
      m.job.id ∉ u.rejection_history ∧ 50 ≤ m.match_score := by
  intro enc u jobs top_k m hm
  rw [rank_matches_eq_take_sort] at hm
  have hm1 : m ∈ sortDesc (preMatches enc u jobs) := List.take_subset _ _ hm
  have hm2 : m ∈ preMatches enc u jobs := (sortDesc_perm _).mem_iff.mp hm1
  cases h1 : create_user_embedding enc u true with
  | none =>
    rw [preMatches_none h1] at hm2
    simp at hm2
  | some e =>
    rw [preMatches_some h1] at hm2
    cases h2 : buildMatches enc u e jobs with
    | none =>
      rw [h2] at hm2
      simp at hm2
    | some ms =>
      rw [h2] at hm2
      exact buildMatches_mem h2 m (by simpa using hm2)

unseal Rat.mul Rat.sub Rat.add Rat.inv in
/-- Claim C5, witness: the theorem applied to the single match the
all-ones encoder produces. -/
theorem rank_matches_members_filtered_witness :
    (rank_matches encAll1 demoUser [demoJob] 20).head!.job.id ∉
        demoUser.rejection_history ∧
    50 ≤ (rank_matches encAll1 demoUser [demoJob] 20).head!.match_score := by
  apply rank_matches_members_filtered encAll1 demoUser [demoJob] 20
  apply List.head!_mem_self
  intro h
  have hlen : (rank_matches encAll1 demoUser [demoJob] 20).length = 1 := by decide
  rw [h] at hlen
  simp at hlen

/-- Claim C4 (confirmed): the ranked list is sorted descending on
match_score, keeps at most top_k entries, and is stable: for every score
value its entries form a subsequence, in order, of the match list built in
candidate order, which itself follows the input job order. -/
theorem rank_matches_sorted_stable :
    ∀ (enc : Encoder) (u : User) (jobs : List Job) (top_k : ℕ),
      (rank_matches enc u jobs top_k).Pairwise
        (fun a b => b.match_score ≤ a.match_score) ∧
      (rank_matches enc u jobs top_k).length ≤ top_k ∧
      (∀ c : ℚ,
        List.Sublist
          ((rank_matches enc u jobs top_k).filter (fun m => m.match_score = c))
          ((preMatches enc u jobs).filter (fun m => m.match_score = c))) ∧
      List.Sublist ((preMatches enc u jobs).map (fun m => m.job)) jobs := by
  intro enc u jobs top_k
  rw [rank_matches_eq_take_sort]
  refine ⟨?_, ?_, ?_, ?_⟩
  · exact List.Pairwise.sublist (List.take_sublist _ _) (sortDesc_pairwise _)
  · exact List.length_take_le _ _
  · intro c
    have h1 := List.Sublist.filter (fun m : MatchResult => decide (m.match_score = c))
      (List.take_sublist top_k (sortDesc (preMatches enc u jobs)))
    rw [sortDesc_filter] at h1
    exact h1
  · cases h1 : create_user_embedding enc u true with
    | none =>
      rw [preMatches_none h1]
      simp
    | some e =>
      rw [preMatches_some h1]
      cases h2 : buildMatches enc u e jobs with
      | none => simp
      | some ms => simpa using buildMatches_sublist h2

end JobMatcher
